import Mathlib

/-!
# Verification of the video-upscaler orchestration pipeline

Shallow embedding of the core modules of the `video-upscaler` repository
(`src/core/utils.py`, `src/core/frame_extractor.py`, `src/core/upscaler.py`,
`src/core/video_assembler.py`, `src/core/video_processor.py`) and proofs of
the behavioural claims about them.

External effects (the probed metadata report, the sequence of frame-file
counts observed by the poll loops, process exit codes, captured stderr text,
file existence) are supplied by explicit environment records; the Python
functions become pure Lean functions from those environments to results and
event traces.  Machine integers are modelled as `Int`/`Nat` (none of the
involved quantities can overflow observably in Python, whose integers are
unbounded) and Python floats as `ℚ` (no claim here depends on rounding).
-/

namespace VideoUpscaler

/-! ## Python string primitives used by the sources -/

/-- Character-list version of Python's substring containment test used as
`needle in hay`: `charsPre` checks that `needle` starts `hay`. -/
def charsPre : List Char → List Char → Bool
  | [], _ => true
  | _ :: _, [] => false
  | a :: as, b :: bs => a == b && charsPre as bs

/-- `needle` occurs somewhere inside `hay` (Python's `needle in hay`). -/
def charsSub (needle : List Char) : List Char → Bool
  | [] => charsPre needle []
  | c :: rest => charsPre needle (c :: rest) || charsSub needle rest

/-- Python's `needle in hay` on strings. -/
def strContainsSub (hay needle : String) : Bool :=
  charsSub needle.data hay.data

/-- Python's `str.lower()`. -/
def strLower (s : String) : String :=
  String.mk (s.data.map Char.toLower)

/-- Python's `str.capitalize()`: first character upper-cased, the rest
lower-cased. -/
def pyCapitalize (s : String) : String :=
  match s.data with
  | [] => ""
  | c :: cs => String.mk (c.toUpper :: cs.map Char.toLower)

/-- Python's `sep.join(parts)`. -/
def joinSep (sep : String) : List String → String
  | [] => ""
  | [x] => x
  | x :: xs => x ++ sep ++ joinSep sep xs

/-! ## Python numeric-literal parsing (`int(s)`, `float(s)`)

The sources feed ffprobe's decimal string fields to `int()` and `float()`
and fall back on `ValueError`.  We model the decimal forms those fields can
take (optional sign, digits, optional fractional part); exotic float
spellings (exponents, `inf`, `nan`) do not occur in the probed reports and
are treated as parse failures. -/

/-- Accumulate a digit string into a natural number; `none` on a
non-digit. -/
def digitsValAux : List Char → Nat → Option Nat
  | [], acc => some acc
  | c :: cs, acc =>
    if c.isDigit then digitsValAux cs (acc * 10 + (c.toNat - 48)) else none

/-- Parse a non-empty string of digits. -/
def digitsVal : List Char → Option Nat
  | [] => none
  | c :: cs => digitsValAux (c :: cs) 0

/-- `true` iff every character is a digit (empty allowed). -/
def allDigits (cs : List Char) : Bool := cs.all Char.isDigit

/-- Unsigned decimal `float` body: `d`, `d.`, `.d` or `d.d`. -/
def unsignedFloat : List Char → Option ℚ
  | cs =>
    match cs.splitOn '.' with
    | [ip] => (digitsVal ip).map fun n => (n : ℚ)
    | [ip, fp] =>
      if ip.isEmpty && fp.isEmpty then none
      else if allDigits ip && allDigits fp then
        let ipv : Nat := (digitsValAux ip 0).getD 0
        let fpv : Nat := (digitsValAux fp 0).getD 0
        some ((ipv : ℚ) + (fpv : ℚ) / ((10 : ℚ) ^ fp.length))
      else none
    | _ => none

/-- Python `float()` on a character sequence: optional sign, then the
unsigned decimal body. -/
def pyFloatChars : List Char → Option ℚ
  | '-' :: rest => (unsignedFloat rest).map fun q => -q
  | '+' :: rest => unsignedFloat rest
  | cs => unsignedFloat cs

/-- Python `float(s)` on the decimal forms occurring in probe reports. -/
def pyFloat (s : String) : Option ℚ :=
  pyFloatChars s.data

/-- Python `int(s)` (optional sign, digits). -/
def pyInt (s : String) : Option Int :=
  match s.data with
  | '-' :: rest => (digitsVal rest).map fun n => -(n : Int)
  | '+' :: rest => (digitsVal rest).map fun n => (n : Int)
  | cs => (digitsVal cs).map fun n => (n : Int)

/-- Python `int(x)` on a float/rational: truncation toward zero. -/
def truncQ (q : ℚ) : Int :=
  if q < 0 then -((-q).floor) else q.floor

/-! ## `src/core/utils.py` -/

/-- `utils.VideoInfo`: container for video metadata extracted via FFprobe. -/
structure VideoInfo where
  width : Int
  height : Int
  fps : ℚ
  frame_count : Int
  duration : ℚ
  has_audio : Bool
  codec : String
  deriving Repr, DecidableEq

/-- One entry of the ffprobe report's `streams` array, restricted to the
fields `get_video_info` reads.  A missing field is `none`; numeric fields
that ffprobe prints as JSON strings are kept as strings, exactly as the
Python code receives them. -/
structure StreamInfo where
  codecType : String
  width : Option Int := none
  height : Option Int := none
  rFrameRate : Option String := none
  nbFrames : Option String := none
  durationStr : Option String := none
  codecName : Option String := none
  deriving Repr, DecidableEq

/-- The ffprobe report's `format` section (only `duration` is read). -/
structure FormatInfo where
  durationStr : Option String := none
  deriving Repr, DecidableEq

/-- A successfully JSON-decoded ffprobe report. -/
structure ProbeData where
  streams : List StreamInfo
  format : Option FormatInfo := none
  deriving Repr, DecidableEq

/-- Outcome of one `subprocess.run` of ffprobe: whether it timed out, its
exit code, captured stderr, and the JSON-decoded stdout (`none` models a
`json.JSONDecodeError`). -/
structure ProbeResult where
  timedOut : Bool := false
  returncode : Int := 0
  stderr : String := ""
  parsed : Option ProbeData := none
  deriving Repr, DecidableEq

/-- The stream-scanning loop of `get_video_info`: the first stream whose
`codec_type` is `"video"`. -/
def findVideoStream (ss : List StreamInfo) : Option StreamInfo :=
  ss.find? fun s => s.codecType == "video"

/-- Audio presence: some stream has `codec_type == "audio"`. -/
def anyAudio (ss : List StreamInfo) : Bool :=
  ss.any fun s => s.codecType == "audio"

/-- Frame-rate parsing of `get_video_info` (utils.py lines 267-276): a
fraction such as `"30000/1001"` is split on `"/"` and divided; any
`ValueError`/`ZeroDivisionError` (malformed part, wrong number of parts,
zero denominator) falls back to `30.0`. -/
def parseFps (s : String) : ℚ :=
  if s.data.contains '/' then
    match s.data.splitOn '/' with
    | [a, b] =>
      match pyFloatChars a, pyFloatChars b with
      | some x, some y => if y == 0 then 30 else x / y
      | _, _ => 30
    | _ => 30
  else
    match pyFloatChars s.data with
    | some x => x
    | none => 30

/-- Frame-count extraction of `get_video_info` (utils.py lines 278-306):
direct `nb_frames` field, else `int(duration * fps)` from the stream's or
the format's duration, else the format's duration again, else `0`. -/
def frameCountOf (vs : StreamInfo) (fmt : Option FormatInfo) (fps : ℚ) : Int :=
  let fc1 : Int :=
    match vs.nbFrames with
    | some s => (pyInt s).getD 0
    | none => 0
  if fc1 ≠ 0 then fc1 else
  let fc2 : Int :=
    match vs.durationStr.or (fmt.bind fun f => f.durationStr) with
    | some ds =>
      match pyFloat ds with
      | some d => truncQ (d * fps)
      | none => 0
    | none => 0
  if fc2 ≠ 0 then fc2 else
  match fmt.bind fun f => f.durationStr with
  | some ds =>
    match pyFloat ds with
    | some d => truncQ (d * fps)
    | none => 0
  | none => 0

/-- Duration extraction of `get_video_info` (utils.py lines 308-315): the
stream's duration, else the format's (default `"0"`); on a parse failure,
`frame_count / fps` when both are positive, else `0.0`. -/
def durationOf (vs : StreamInfo) (fmt : Option FormatInfo) (fc : Int)
    (fps : ℚ) : ℚ :=
  let ds : String :=
    vs.durationStr.getD ((fmt.bind fun f => f.durationStr).getD "0")
  match pyFloat ds with
  | some d => d
  | none => if fc > 0 ∧ fps > 0 then (fc : ℚ) / fps else 0

/-- `utils.get_video_info`, as a function of the ffprobe invocation's
outcome.  Returns the error message of the raised `VideoValidationError`
on failure (the JSON-decode message's dynamic detail is elided). -/
def getVideoInfo (r : ProbeResult) : Except String VideoInfo :=
  if r.timedOut then
    .error "FFprobe timed out while reading video info"
  else if r.returncode ≠ 0 then
    .error ("FFprobe failed to read video:\n" ++ r.stderr)
  else
    match r.parsed with
    | none => .error "Failed to parse FFprobe output"
    | some data =>
      match findVideoStream data.streams with
      | none => .error "No video stream found in file"
      | some vs =>
        let width := vs.width.getD 0
        let height := vs.height.getD 0
        if width == 0 || height == 0 then
          .error "Could not determine video dimensions"
        else
          let fps := parseFps (vs.rFrameRate.getD "30/1")
          let fc := frameCountOf vs data.format fps
          .ok { width := width
                height := height
                fps := fps
                frame_count := fc
                duration := durationOf vs data.format fc fps
                has_audio := anyAudio data.streams
                codec := vs.codecName.getD "unknown" }

/-- `pathlib.Path`, restricted to what the sources use: the containing
directory, the stem and the suffix (extension including the dot). -/
structure PyPath where
  parent : String
  stem : String
  ext : String
  deriving Repr, DecidableEq

/-- `str(path)`; the separator is abstracted to `"/"`. -/
def pathStr (p : PyPath) : String :=
  p.parent ++ "/" ++ p.stem ++ p.ext

/-- `utils.generate_output_path`: `input.parent / (stem + suffix + ext)`. -/
def generateOutputPath (input : PyPath) (suffix : String) : PyPath :=
  { parent := input.parent, stem := input.stem ++ suffix, ext := input.ext }

/-- Existence of the external binaries and model asset files on disk. -/
structure FS where
  ffmpegThere : Bool
  ffprobeThere : Bool
  realesrganThere : Bool
  binThere : String → Bool
  paramThere : String → Bool

/-- `utils.validate_models_exist(model_name)`: collects the missing
`.bin`/`.param` paths of the named model and raises `BinaryNotFoundError`
when the list is non-empty, else returns the pair of paths. -/
def validateModelsExist (modelName : String) (fs : FS) :
    Except String (String × String) :=
  let bin := "models/" ++ modelName ++ ".bin"
  let par := "models/" ++ modelName ++ ".param"
  let missing :=
    (if fs.binThere modelName then [] else [bin]) ++
    (if fs.paramThere modelName then [] else [par])
  if missing.isEmpty then .ok (bin, par)
  else
    .error ("Model files not found:\n  " ++ joinSep "\n" missing ++
      "\n\nPlease download the Real-ESRGAN models from:\n" ++
      "https://github.com/xinntao/Real-ESRGAN/releases\n" ++
      "and place the .bin and .param files in the 'models' folder.")

/-- Abbreviated `BinaryNotFoundError` messages of the three
`get_*_path` helpers (the full texts carry absolute paths and download
instructions; no claim depends on them). -/
def ffmpegMissingMsg : String := "FFmpeg not found"

def ffprobeMissingMsg : String := "FFprobe not found"

def realesrganMissingMsg : String := "Real-ESRGAN not found"

/-- `utils.validate_all_dependencies`: error strings for each absent
dependency, in source order; the model check uses the default model
`"realesrgan-x4plus"`. -/
def validateAllDependencies (fs : FS) : List String :=
  (if fs.ffmpegThere then [] else [ffmpegMissingMsg]) ++
  (if fs.ffprobeThere then [] else [ffprobeMissingMsg]) ++
  (if fs.realesrganThere then [] else [realesrganMissingMsg]) ++
  (match validateModelsExist "realesrgan-x4plus" fs with
   | .ok _ => []
   | .error e => [e])

/-- The supported input extensions of `utils.validate_input_video`. -/
def supportedExts : List String :=
  [".mp4", ".mkv", ".avi", ".mov", ".wmv", ".flv",
   ".webm", ".m4v", ".mpeg", ".mpg", ".3gp"]

/-- `utils.validate_input_video`: `none` when the file exists and its
lower-cased suffix is supported, else the `VideoValidationError`
message. -/
def validateInputVideo (p : PyPath) (present : Bool) : Option String :=
  if !present then some ("Input video not found: " ++ pathStr p)
  else if supportedExts.contains (strLower p.ext) then none
  else some ("Unsupported video format: " ++ strLower p.ext ++
    "\nSupported formats: .3gp, .avi, .flv, .m4v, .mkv, .mov, .mp4, .mpeg, .mpg, .webm, .wmv")

/-! ## Stage runs

Each stage is modelled as a function from an environment describing the
external world to `(result, events)`, where the events record every spawned
process and every invocation of the progress callback, in order.

Cancellation: `VideoProcessor.cancel` sets a flag that is read at discrete
observation points (the check after validation, each poll-loop iteration,
and the checks between stages), numbered globally in program order.
`cancelFrom = some k` means the flag was set before the `k`-th observation
and therefore reads true at every observation with index `≥ k`;
`none` means cancellation is never requested. -/

/-- The names of the three wrapped executables. -/
def ffmpegName : String := "ffmpeg.exe"

def ffprobeName : String := "ffprobe.exe"

def realesrganName : String := "realesrgan-ncnn-vulkan.exe"

/-- Whether the cancellation flag reads true at observation `i`. -/
def obsCancelled (cancelFrom : Option Nat) (i : Nat) : Bool :=
  match cancelFrom with
  | none => false
  | some k => k ≤ i

/-- An event produced while a stage runs: a process spawn, or one progress
callback `(current, total, message)`. -/
inductive StageEv where
  | spawn (tool : String)
  | sample (current total : Int) (msg : String)
  deriving Repr, DecidableEq

/-- The shared shape of the extraction/upscaling poll loops
(frame_extractor.py lines 139-160, upscaler.py lines 170-192): while the
child is alive (one list entry per tick), check the cancellation flag,
re-count the output frames, and invoke the callback when the count
changed.  Returns the emitted events and whether cancellation was
observed. -/
def pollCounts (cancelFrom : Option Nat) (total : Int)
    (mkMsg : Nat → String) : Nat → Nat → List Nat → List StageEv × Bool
  | _, _, [] => ([], false)
  | obs, last, c :: rest =>
    if obsCancelled cancelFrom obs then ([], true)
    else
      let r := pollCounts cancelFrom total mkMsg (obs + 1) c rest
      if c ≠ last then (StageEv.sample (c : Int) total (mkMsg c) :: r.1, r.2)
      else r

/-- External outcome of one `FrameExtractor.extract` run: the ffprobe
result of its own `get_video_info` call, the frame-file counts seen at
successive poll ticks (the child exits when the list is exhausted), the
child's exit code, the frame count measured after exit, and the captured
stderr text. -/
structure ExtractEnv where
  probe : ProbeResult
  counts : List Nat := []
  exitCode : Int := 0
  finalCount : Nat := 0
  stderr : String := ""

/-- `FrameExtractor.extract`, over `ExtractEnv`; observation indices for
the poll loop start at `obs0`.  The error string is the
`FrameExtractionError` message. -/
def extractRun (e : ExtractEnv) (cancelFrom : Option Nat) (obs0 : Nat) :
    Except String Nat × List StageEv :=
  match getVideoInfo e.probe with
  | .error msg =>
    (.error ("Failed to get video info: " ++ msg), [StageEv.spawn ffprobeName])
  | .ok vi =>
    let total : Int := if vi.frame_count == 0 then 1000 else vi.frame_count
    let pre : List StageEv :=
      [StageEv.spawn ffprobeName,
       StageEv.sample 0 total "Starting frame extraction...",
       StageEv.spawn ffmpegName]
    let loop := pollCounts cancelFrom total
      (fun c => "Extracting frame " ++ toString c ++ "/" ++ toString total)
      obs0 0 e.counts
    if loop.2 then (.error "Extraction cancelled by user", pre ++ loop.1)
    else if e.exitCode ≠ 0 then
      (.error ("FFmpeg extraction failed (code " ++ toString e.exitCode ++
        "):\n" ++ e.stderr), pre ++ loop.1)
    else if e.finalCount == 0 then
      (.error ("No frames were extracted. The video may be corrupted or empty.\nDetails: "
        ++ e.stderr), pre ++ loop.1)
    else
      (.ok e.finalCount,
       pre ++ loop.1 ++
        [StageEv.sample (e.finalCount : Int) (e.finalCount : Int)
          ("Extracted " ++ toString e.finalCount ++ " frames")])

/-- The message of the `TypeError` that `Upscaler.upscale` converts into an
`UpscalingError`: upscaler.py line 113 calls
`validate_models_exist(self.model_name, self.scale)`, but utils.py line 139
declares `validate_models_exist(model_name="realesrgan-x4plus")` with a
single parameter, so the call itself raises before touching the disk. -/
def arityErrMsg : String :=
  "validate_models_exist() takes from 0 to 1 positional arguments but 2 were given"

/-- `Upscaler.upscale` (upscaler.py lines 95-242).  The model-file
validation call at line 113 passes two positional arguments to a
one-parameter function; the resulting `TypeError` is caught by the
surrounding `except Exception` and re-raised as `UpscalingError(str(e))`,
before any frame counting or process spawn.  Every run therefore fails
immediately, independently of the environment. -/
def upscaleRun : Except String Nat × List StageEv :=
  (.error arityErrMsg, [])

/-- External outcome of the post-validation portion of an upscaling run:
number of input frames found, the input directory (for the error message),
poll-tick output counts, exit code, final output count, stderr. -/
structure UpscaleMonEnv where
  inputCount : Nat := 0
  inputDir : String := ""
  counts : List Nat := []
  exitCode : Int := 0
  finalCount : Nat := 0
  stderr : String := ""

/-- Stderr-based error classification of `Upscaler.upscale` on a non-zero
exit (upscaler.py lines 198-218). -/
def classifyUpscaleErr (stderr : String) (code : Int) : String :=
  if strContainsSub stderr "vkCreateInstance" ||
      strContainsSub (strLower stderr) "vulkan" then
    "Vulkan GPU initialization failed.\n\nPlease ensure:\n1. Your GPU supports Vulkan\n2. GPU drivers are up to date\n3. No other GPU-intensive applications are running"
  else if strContainsSub (strLower stderr) "out of memory" ||
      strContainsSub (strLower stderr) "memory" then
    "GPU ran out of memory.\n\nTry closing other applications or using a lower resolution video."
  else
    "Real-ESRGAN failed (code " ++ toString code ++ "):\n" ++ stderr

/-- The portion of `Upscaler.upscale` after the model-file validation call
(upscaler.py lines 117-242): input-frame counting, the spawn, the poll
loop, and the exit-code/zero-output classification.  In the source as it
stands this code is unreachable, because the validation call always raises
(see `upscaleRun` and `arityErrMsg`); it is embedded here because the
claims about the stage's success criterion are claims about this code. -/
def upscaleMonitor (e : UpscaleMonEnv) (cancelFrom : Option Nat)
    (obs0 : Nat) : Except String Nat × List StageEv :=
  if e.inputCount == 0 then
    (.error ("No frames found in input directory: " ++ e.inputDir), [])
  else
    let total : Int := e.inputCount
    let pre : List StageEv :=
      [StageEv.sample 0 total "Starting AI upscaling...",
       StageEv.spawn realesrganName]
    let loop := pollCounts cancelFrom total
      (fun c => "Upscaling frame " ++ toString c ++ "/" ++ toString total)
      obs0 0 e.counts
    if loop.2 then (.error "Upscaling cancelled by user", pre ++ loop.1)
    else if e.exitCode ≠ 0 then
      (.error (classifyUpscaleErr e.stderr e.exitCode), pre ++ loop.1)
    else if e.finalCount == 0 then
      (.error ("No frames were upscaled. Check GPU compatibility and driver versions.\nDetails: "
        ++ e.stderr), pre ++ loop.1)
    else
      (.ok e.finalCount,
       pre ++ loop.1 ++
        [StageEv.sample (e.finalCount : Int) total
          ("Upscaled " ++ toString e.finalCount ++ " frames")])

/-- `VideoAssembler._get_codec_args`. -/
def getCodecArgs (outputExt : String) : List String :=
  if outputExt == ".mp4" || outputExt == ".m4v" || outputExt == ".mov" then
    ["-c:v", "libx264", "-crf", "18", "-preset", "slow",
     "-c:a", "aac", "-b:a", "192k"]
  else if outputExt == ".mkv" then
    ["-c:v", "libx264", "-crf", "18", "-preset", "slow", "-c:a", "copy"]
  else if outputExt == ".webm" then
    ["-c:v", "libvpx-vp9", "-crf", "20", "-b:v", "0",
     "-c:a", "libopus", "-b:a", "192k"]
  else if outputExt == ".avi" then
    ["-c:v", "libx264", "-crf", "18", "-preset", "slow",
     "-c:a", "mp3", "-b:a", "192k"]
  else
    ["-c:v", "libx264", "-crf", "18", "-preset", "slow",
     "-c:a", "aac", "-b:a", "192k"]

/-- The FFmpeg command built by `VideoAssembler.assemble` (video_assembler.py
lines 113-140), given the frame pattern, the original video path, the output
path, the frame rate (its Python `str()` is abstracted by `toString` on ℚ),
the audio flag and the lower-cased output extension. -/
def assembleCmd (framePattern originalStr outStr : String) (fps : ℚ)
    (hasAudio : Bool) (outputExt : String) : List String :=
  [ffmpegName, "-framerate", toString fps, "-i", framePattern] ++
  (if hasAudio then
    ["-i", originalStr, "-map", "0:v", "-map", "1:a?"]
   else []) ++
  getCodecArgs outputExt ++
  ["-pix_fmt", "yuv420p", "-movflags", "+faststart", "-y", outStr]

/-- External outcome of one `VideoAssembler.assemble` run: number of frame
files found in the frames directory, the observed output-file size at each
poll tick (`none` while the file does not exist yet), exit code, whether the
output file exists after exit and its size, stderr. -/
structure AssembleEnv where
  framesCount : Nat := 0
  framesDir : String := ""
  sizes : List (Option Int) := []
  exitCode : Int := 0
  outputThere : Bool := true
  outputSize : Int := 0
  stderr : String := ""

/-- The size-growth poll loop of `VideoAssembler.assemble`
(video_assembler.py lines 164-188): on each tick check cancellation, and
when the output file has grown advance the estimated counter by 10,
capped at `total - 1`, emitting a callback. -/
def assembleLoop (cancelFrom : Option Nat) (total : Int) :
    Nat → Int → Int → List (Option Int) → List StageEv × Bool
  | _, _, _, [] => ([], false)
  | obs, lastSize, fp, sz :: rest =>
    if obsCancelled cancelFrom obs then ([], true)
    else
      match sz with
      | some s =>
        if lastSize < s then
          let fp' := min (fp + 10) (total - 1)
          let r := assembleLoop cancelFrom total (obs + 1) s fp' rest
          (StageEv.sample fp' total "Encoding video..." :: r.1, r.2)
        else assembleLoop cancelFrom total (obs + 1) lastSize fp rest
      | none => assembleLoop cancelFrom total (obs + 1) lastSize fp rest

/-- `VideoAssembler.assemble`, over `AssembleEnv`; the video info is the
one the pipeline passes in.  Returns the output path string on success;
the error string is the `VideoAssemblyError` message. -/
def assembleRun (e : AssembleEnv) (original outPath : PyPath)
    (vi : VideoInfo) (cancelFrom : Option Nat) (obs0 : Nat) :
    Except String String × List StageEv :=
  if e.framesCount == 0 then
    (.error ("No frames found in directory: " ++ e.framesDir), [])
  else
    let total : Int := e.framesCount
    let _ := assembleCmd (e.framesDir ++ "/frame_%08d.png")
      (pathStr original) (pathStr outPath) vi.fps vi.has_audio
      (strLower outPath.ext)
    let pre : List StageEv :=
      [StageEv.sample 0 total "Assembling video...",
       StageEv.spawn ffmpegName]
    let loop := assembleLoop cancelFrom total obs0 0 0 e.sizes
    if loop.2 then (.error "Assembly cancelled by user", pre ++ loop.1)
    else if e.exitCode ≠ 0 then
      (.error ("FFmpeg encoding failed (code " ++ toString e.exitCode ++
        "):\n" ++ e.stderr), pre ++ loop.1)
    else if !e.outputThere then
      (.error "Output video was not created. FFmpeg may have encountered an error.",
       pre ++ loop.1)
    else if e.outputSize < 1000 then
      (.error "Output video appears to be corrupted (file too small).",
       pre ++ loop.1)
    else
      (.ok (pathStr outPath),
       pre ++ loop.1 ++
        [StageEv.sample total total "Video assembly complete"])

/-! ## `src/core/video_processor.py` -/

/-- `video_processor.ProcessingStage`. -/
inductive ProcessingStage where
  | IDLE | VALIDATING | EXTRACTING | UPSCALING | ASSEMBLING
  | CLEANUP | COMPLETE | ERROR | CANCELLED
  deriving Repr, DecidableEq

/-- `stage.name` of the Python enum member. -/
def stageName : ProcessingStage → String
  | .IDLE => "IDLE"
  | .VALIDATING => "VALIDATING"
  | .EXTRACTING => "EXTRACTING"
  | .UPSCALING => "UPSCALING"
  | .ASSEMBLING => "ASSEMBLING"
  | .CLEANUP => "CLEANUP"
  | .COMPLETE => "COMPLETE"
  | .ERROR => "ERROR"
  | .CANCELLED => "CANCELLED"

/-- The ETA computation inside `VideoProcessor._on_progress`
(video_processor.py lines 163-169): `elapsed / current * (total - current)`
once `current > 0`, else `-1`. -/
def onProgressRemaining (elapsed : ℚ) (current total : Int) : ℚ :=
  if 0 < current then elapsed / (current : ℚ) * ((total : ℚ) - (current : ℚ))
  else -1

/-- `VideoProcessor._on_progress`: the payload handed to the
`progress_updated` signal, whose signature is
`pyqtSignal(int, int, str, str)` — `(current, total, stage, message)`.
The handler computes `remaining` from `elapsed` but the emitted payload
does not include it (the value is dropped on the floor at line 171). -/
def onProgress (elapsed : ℚ) (stage : ProcessingStage)
    (current total : Int) (msg : String) : Int × Int × String × String :=
  let _ := onProgressRemaining elapsed current total
  (current, total, pyCapitalize (stageName stage), msg)

/-- An externally visible event of one `VideoProcessor.run`:
`stage_changed` / `progress_updated` signals, a process spawn, the creation
and removal of the temporary workspace, and the two terminal signals
`processing_complete` / `processing_error`. -/
inductive Event where
  | stageChanged (s : ProcessingStage)
  | progress (current total : Int) (stage msg : String)
  | spawned (tool : String)
  | tempCreated
  | cleanup
  | completed (outputPath : String)
  | errorMsg (msg : String)
  deriving Repr, DecidableEq

/-- Lift a stage's event into the pipeline trace: spawns pass through,
progress callbacks go through `_on_progress` with the given ambient
elapsed time and the currently active stage. -/
def mapSE (elapsed : ℚ) (st : ProcessingStage) : StageEv → Event
  | .spawn t => .spawned t
  | .sample c t m =>
    let p := onProgress elapsed st c t m
    .progress p.1 p.2.1 p.2.2.1 p.2.2.2

/-- The exceptions that reach the `try`/`except` ladder of
`VideoProcessor.run`, by Python class. -/
inductive PyExn where
  | frameExtraction (msg : String)
  | upscaling (msg : String)
  | videoAssembly (msg : String)
  | generic (msg : String)
  deriving Repr, DecidableEq

/-- The `except` ladder of `VideoProcessor.run` (lines 300-323): each
stage-specific exception class maps to `ERROR` with a stage-labelled
message; only a plain `Exception` whose text contains `"cancelled"`
(lower-cased) maps to `CANCELLED`. -/
def handleExn : PyExn → ProcessingStage × String
  | .frameExtraction m => (.ERROR, "Frame extraction failed:\n" ++ m)
  | .upscaling m => (.ERROR, "AI upscaling failed:\n" ++ m)
  | .videoAssembly m => (.ERROR, "Video assembly failed:\n" ++ m)
  | .generic m =>
    if strContainsSub (strLower m) "cancelled" then
      (.CANCELLED, "Processing was cancelled")
    else (.ERROR, "Processing failed:\n" ++ m)

/-- The common tail of every failure path: set the terminal stage, run the
best-effort temp cleanup, then emit `processing_error`. -/
def finishTr (t : List Event) (exn : PyExn) : List Event :=
  let h := handleExn exn
  t ++ [Event.stageChanged h.1, Event.cleanup, Event.errorMsg h.2]

/-- The scale check of `Upscaler.__init__` (upscaler.py lines 57-61):
`VALID_SCALES = {2, 3, 4}`. -/
def scaleInvalid (s : Int) : Bool :=
  !(s == 2 || s == 3 || s == 4)

/-- The `ValueError` message of `Upscaler.__init__`. -/
def scaleErrMsg (s : Int) : String :=
  "Invalid scale factor: " ++ toString s ++ ". Valid options are: [2, 3, 4]"

/-- Everything external that one `VideoProcessor.run` consumes. -/
structure RunEnv where
  fs : FS
  inputPath : PyPath
  inputThere : Bool := true
  outputPath : Option PyPath := none
  scale : Int := 4
  modelName : String := "realesrgan-x4plus"
  probe : ProbeResult
  extract : ExtractEnv
  assemble : AssembleEnv := {}
  cancelFrom : Option Nat := none
  elapsed : ℚ := 0

/-- `VideoProcessor.run` (video_processor.py lines 195-323), as the full
trace of events it produces.  Observation indices: `0` is the
post-validation check (line 236), the extraction poll ticks are `1 ..`,
the post-extraction check (line 253) follows them, then the
post-upscaling check (line 269), the assembly poll ticks, and the
post-assembly check (line 285). -/
def runPipeline (env : RunEnv) : List Event :=
  let t1 : List Event :=
    [Event.stageChanged .VALIDATING,
     Event.progress 0 100 "Validating" "Checking dependencies..."]
  let errs := validateAllDependencies env.fs
  if !errs.isEmpty then finishTr t1 (.generic (joinSep "\n\n" errs))
  else
    match validateInputVideo env.inputPath env.inputThere with
    | some msg => finishTr t1 (.generic msg)
    | none =>
      let t2 := t1 ++ [Event.spawned ffprobeName]
      match getVideoInfo env.probe with
      | .error msg => finishTr t2 (.generic msg)
      | .ok vinfo =>
        let outP :=
          match env.outputPath with
          | some p => p
          | none =>
            generateOutputPath env.inputPath
              ("_" ++ toString env.scale ++ "x_upscaled")
        let t3 := t2 ++
          [Event.progress 100 100 "Validating" "Validation complete"]
        if obsCancelled env.cancelFrom 0 then
          finishTr t3 (.generic "Processing cancelled")
        else
          let t4 := t3 ++ [Event.tempCreated, Event.stageChanged .EXTRACTING]
          let ex := extractRun env.extract env.cancelFrom 1
          let t5 := t4 ++ ex.2.map (mapSE env.elapsed .EXTRACTING)
          match ex.1 with
          | .error msg => finishTr t5 (.frameExtraction msg)
          | .ok _ =>
            let obsA := 1 + env.extract.counts.length
            if obsCancelled env.cancelFrom obsA then
              finishTr t5 (.generic "Processing cancelled")
            else
              let t6 := t5 ++ [Event.stageChanged .UPSCALING]
              if scaleInvalid env.scale then
                finishTr t6 (.generic (scaleErrMsg env.scale))
              else
                let up := upscaleRun
                let t7 := t6 ++ up.2.map (mapSE env.elapsed .UPSCALING)
                match up.1 with
                | .error msg => finishTr t7 (.upscaling msg)
                | .ok _ =>
                  if obsCancelled env.cancelFrom (obsA + 1) then
                    finishTr t7 (.generic "Processing cancelled")
                  else
                    let t8 := t7 ++ [Event.stageChanged .ASSEMBLING]
                    let asm := assembleRun env.assemble env.inputPath outP
                      vinfo env.cancelFrom (obsA + 2)
                    let t9 := t8 ++ asm.2.map (mapSE env.elapsed .ASSEMBLING)
                    match asm.1 with
                    | .error msg => finishTr t9 (.videoAssembly msg)
                    | .ok outStr =>
                      if obsCancelled env.cancelFrom
                          (obsA + 2 + env.assemble.sizes.length) then
                        finishTr t9 (.generic "Processing cancelled")
                      else
                        t9 ++
                          [Event.stageChanged .CLEANUP,
                           Event.progress 0 100 "Cleanup"
                             "Removing temporary files...",
                           Event.cleanup,
                           Event.progress 100 100 "Cleanup" "Cleanup complete",
                           Event.stageChanged .COMPLETE,
                           Event.completed outStr]

/-! ## Trace observations -/

/-- The two terminal signals. -/
def isTerminal : Event → Bool
  | .completed _ => true
  | .errorMsg _ => true
  | _ => false

/-- Track whether the temporary workspace directory exists across one
event (`rmtree` is modelled as succeeding; the source swallows its
failures). -/
def updTemp (temp : Bool) : Event → Bool
  | .tempCreated => true
  | .cleanup => false
  | _ => temp

/-- Scan a trace: `true` iff it contains exactly one terminal signal, that
signal is the last event, and the temporary workspace does not exist at
the moment it fires. -/
def checkTr : Bool → List Event → Bool
  | _, [] => false
  | temp, e :: rest =>
    if isTerminal e then rest.isEmpty && !temp
    else checkTr (updTemp temp e) rest

/-- The last `stage_changed` state of a trace. -/
def finalStage (tr : List Event) : Option ProcessingStage :=
  (tr.filterMap fun e =>
    match e with
    | .stageChanged s => some s
    | _ => none).getLast?

/-- The terminal signals of a trace. -/
def terminalEvents (tr : List Event) : List Event :=
  tr.filter isTerminal

/-- The spawned tools of a trace, in order. -/
def trSpawns (tr : List Event) : List String :=
  tr.filterMap fun e =>
    match e with
    | .spawned t => some t
    | _ => none

/-- `true` iff some spawn event occurs strictly before the first
`processing_error` signal. -/
def spawnBeforeErr : List Event → Bool
  | [] => false
  | .errorMsg _ :: _ => false
  | .spawned _ :: _ => true
  | _ :: rest => spawnBeforeErr rest

/-- The `current` values of the progress callbacks in a stage-event
list. -/
def sampleCurrents (evs : List StageEv) : List Int :=
  evs.filterMap fun e =>
    match e with
    | .sample c _ _ => some c
    | _ => none

/-- `true` iff some progress callback in the list reports
`current > total`. -/
def anyOverTotal (evs : List StageEv) : Bool :=
  evs.any fun e =>
    match e with
    | .sample c t _ => t < c
    | _ => false

/-- The payload the claim under review describes for `progress_updated`:
the stage's sample augmented with the stage name and an optional ETA
(`none` rendering as "unknown").  This definition follows the words of the
specification, not the source; it exists to be compared with
`onProgress`. -/
def onProgressSpecPayload (elapsed : ℚ) (stage : ProcessingStage)
    (current total : Int) (msg : String) :
    Int × Int × String × String × Option ℚ :=
  (current, total, pyCapitalize (stageName stage), msg,
   if 0 < current then
     some (elapsed / (current : ℚ) * ((total : ℚ) - (current : ℚ)))
   else none)

/-- The scale validation of `Upscaler.__init__`, as the outcome of the
constructor: a `ValueError` for a scale outside `VALID_SCALES`. -/
def upscalerInit (s : Int) : Except String Unit :=
  if scaleInvalid s then .error (scaleErrMsg s) else .ok ()

/-! ## Concrete environments used by the closed theorems -/

/-- A filesystem on which every dependency and every model asset is
present. -/
def fsAll : FS :=
  { ffmpegThere := true, ffprobeThere := true, realesrganThere := true,
    binThere := fun _ => true, paramThere := fun _ => true }

/-- A probe report for a healthy 2-frame video. -/
def probeTwo : ProbeResult :=
  { parsed := some { streams :=
      [{ codecType := "video", width := some 4, height := some 4,
         rFrameRate := some "1/1", nbFrames := some "2" }] } }

/-- A probe report whose frame-rate field is not a number. -/
def probeBadFps : ProbeResult :=
  { parsed := some { streams :=
      [{ codecType := "video", width := some 100, height := some 100,
         rFrameRate := some "garbage" }] } }

/-- An input video path. -/
def inPath : PyPath := ⟨"C:/vids", "movie", ".mp4"⟩

/-- An extraction in which ffmpeg produces one more frame (3) than the
probe reported (2). -/
def extractOverEnv : ExtractEnv :=
  { probe := probeTwo, counts := [3], finalCount := 3 }

/-- A healthy pipeline environment: all dependencies present, valid input,
extraction succeeds with one frame. -/
def envHealthy : RunEnv :=
  { fs := fsAll, inputPath := inPath, probe := probeTwo,
    extract := { probe := probeTwo, counts := [1], finalCount := 1 } }

/-- `envHealthy` with cancellation first observed at observation 1 — the
first iteration of the extraction poll loop. -/
def envCancelPoll : RunEnv :=
  { envHealthy with cancelFrom := some 1 }

/-- A healthy environment whose extraction child exits before the first
poll tick, so that cancellation (also first observable at observation 1)
is instead observed by the between-stage check after extraction. -/
def envCancelBetween : RunEnv :=
  { fs := fsAll, inputPath := inPath, probe := probeTwo,
    extract := { probe := probeTwo, counts := [], finalCount := 1 },
    cancelFrom := some 1 }

/-- A healthy environment with the unsupported scale factor 5. -/
def envScale5 : RunEnv := { envHealthy with scale := 5 }

/-! ## Trace lemmas -/

/-- Stage events that a well-behaved stage emits: progress samples, and
spawns of tools other than the enhancement binary. -/
def seOk : StageEv → Bool
  | .spawn t => t != realesrganName
  | .sample _ _ _ => true

/-- Pipeline events that may occur before the terminal signal: anything
but the terminal signals themselves, with the enhancement binary never
spawned. -/
def evOk : Event → Bool
  | .completed _ => false
  | .errorMsg _ => false
  | .spawned t => t != realesrganName
  | _ => true

theorem seOk_mapSE_evOk (el : ℚ) (st : ProcessingStage) (sev : StageEv)
    (h : seOk sev = true) : evOk (mapSE el st sev) = true := by
  cases sev with
  | spawn t => simpa [mapSE, evOk, seOk] using h
  | sample c tt m => simp [mapSE, evOk]

theorem pollCounts_all_seOk (cf : Option Nat) (total : Int)
    (mk : Nat → String) :
    ∀ counts obs last, ((pollCounts cf total mk obs last counts).1).all seOk = true := by
  intro counts
  induction counts with
  | nil => intro obs last; simp [pollCounts]
  | cons c rest ih =>
    intro obs last
    simp only [pollCounts]
    split
    · simp
    · split
      · simpa [seOk] using ih (obs + 1) c
      · exact ih (obs + 1) c

theorem all_snd_ite {α β : Type} (p : β → Bool) (c : Prop) [Decidable c]
    (a b : α × List β) (ha : a.2.all p = true) (hb : b.2.all p = true) :
    ((if c then a else b).2).all p = true := by
  split
  · exact ha
  · exact hb

theorem extractRun_all_seOk (e : ExtractEnv) (cf : Option Nat) (obs0 : Nat) :
    ((extractRun e cf obs0).2).all seOk = true := by
  have hp := pollCounts_all_seOk cf
  unfold extractRun
  split
  next => simp [seOk, ffprobeName, realesrganName]
  next vi hv =>
    dsimp only
    apply all_snd_ite seOk _ _ _ ?_
      (all_snd_ite seOk _ _ _ ?_ (all_snd_ite seOk _ _ _ ?_ ?_))
    all_goals
      simp [seOk, ffprobeName, ffmpegName, realesrganName,
        List.all_append, hp]

theorem assembleLoop_all_seOk (cf : Option Nat) (total : Int) :
    ∀ sizes obs lastSize fp,
      ((assembleLoop cf total obs lastSize fp sizes).1).all seOk = true := by
  intro sizes
  induction sizes with
  | nil => intro obs lastSize fp; simp [assembleLoop]
  | cons sz rest ih =>
    intro obs lastSize fp
    simp only [assembleLoop]
    split
    · simp
    · cases sz with
      | some s =>
        simp only []
        split
        · simpa [seOk] using ih (obs + 1) s (min (fp + 10) (total - 1))
        · exact ih (obs + 1) lastSize fp
      | none => exact ih (obs + 1) lastSize fp

theorem assembleRun_all_seOk (e : AssembleEnv) (orig outP : PyPath)
    (vi : VideoInfo) (cf : Option Nat) (obs0 : Nat) :
    ((assembleRun e orig outP vi cf obs0).2).all seOk = true := by
  have hp := assembleLoop_all_seOk cf
  unfold assembleRun
  split
  next => simp
  next h =>
    dsimp only
    apply all_snd_ite seOk _ _ _ ?_ (all_snd_ite seOk _ _ _ ?_
      (all_snd_ite seOk _ _ _ ?_ (all_snd_ite seOk _ _ _ ?_ ?_)))
    all_goals
      simp [seOk, ffmpegName, realesrganName, List.all_append, hp]

theorem all_evOk_map (el : ℚ) (st : ProcessingStage) (sevs : List StageEv)
    (h : sevs.all seOk = true) :
    (sevs.map (mapSE el st)).all evOk = true := by
  induction sevs with
  | nil => simp
  | cons sev rest ih =>
    simp only [List.map_cons, List.all_cons, Bool.and_eq_true] at h ⊢
    exact ⟨seOk_mapSE_evOk el st sev h.1, ih h.2⟩

/-- Pipeline events allowed anywhere in a trace: never a `completed`
signal, never a spawn of the enhancement binary (`errorMsg` is allowed
here, unlike in `evOk`). -/
def evOk2 : Event → Bool
  | .completed _ => false
  | .spawned t => t != realesrganName
  | _ => true

/-- The combined trace invariant of every pipeline run: exactly one
terminal signal, last, with the workspace gone (`checkTr`), plus
`evOk2` everywhere. -/
def goodTr (tr : List Event) : Bool :=
  checkTr false tr && tr.all evOk2

theorem goodTr_ite (c : Prop) [Decidable c] (a b : List Event)
    (ha : goodTr a = true) (hb : goodTr b = true) :
    goodTr (if c then a else b) = true := by
  split
  · exact ha
  · exact hb

theorem checkTr_append_nt :
    ∀ (t : List Event) (temp : Bool) (rest : List Event),
      t.all (fun e => !isTerminal e) = true →
      checkTr temp (t ++ rest) = checkTr (t.foldl updTemp temp) rest := by
  intro t
  induction t with
  | nil => intro temp rest _; rfl
  | cons e t ih =>
    intro temp rest h
    simp only [List.all_cons, Bool.and_eq_true] at h
    have he : isTerminal e = false := by
      cases hie : isTerminal e
      · rfl
      · rw [hie] at h; exact absurd h.1 (by simp)
    simp only [List.cons_append, checkTr, he, Bool.false_eq_true,
      if_false, List.foldl_cons]
    exact ih (updTemp temp e) rest h.2

theorem checkTr_fail_tail (temp : Bool) (st : ProcessingStage)
    (m : String) :
    checkTr temp [Event.stageChanged st, Event.cleanup, Event.errorMsg m]
      = true := by
  simp [checkTr, isTerminal, updTemp]

theorem goodTr_finishTr (t : List Event) (exn : PyExn)
    (h : t.all evOk = true) : goodTr (finishTr t exn) = true := by
  rw [List.all_eq_true] at h
  have hnt : t.all (fun e => !isTerminal e) = true := by
    rw [List.all_eq_true]
    intro e he
    have := h e he
    cases e <;> simp_all [evOk, isTerminal]
  have h2 : t.all evOk2 = true := by
    rw [List.all_eq_true]
    intro e he
    have := h e he
    cases e <;> simp_all [evOk, evOk2]
  unfold goodTr finishTr
  rw [Bool.and_eq_true]
  constructor
  · rw [checkTr_append_nt t false _ hnt]
    exact checkTr_fail_tail _ _ _
  · simp [List.all_append, h2, evOk2]

/-- Every run of the pipeline satisfies the combined trace invariant:
the success tail is unreachable because `upscaleRun` always raises (see
`arityErrMsg`), and every path ends in the failure tail after a prefix of
well-behaved events. -/
theorem pipeline_trace_good (env : RunEnv) :
    goodTr (runPipeline env) = true := by
  have hex := all_evOk_map env.elapsed ProcessingStage.EXTRACTING _
    (extractRun_all_seOk env.extract env.cancelFrom 1)
  unfold runPipeline
  simp only [upscaleRun]
  apply goodTr_ite _ _ _ (goodTr_finishTr _ _ (by simp [evOk])) ?_
  cases hval : validateInputVideo env.inputPath env.inputThere with
  | some msg => exact goodTr_finishTr _ _ (by simp [evOk])
  | none =>
    cases hprobe : getVideoInfo env.probe with
    | error msg =>
      exact goodTr_finishTr _ _
        (by simp [evOk, ffprobeName, realesrganName])
    | ok vinfo =>
      apply goodTr_ite _ _ _
        (goodTr_finishTr _ _
          (by simp [evOk, ffprobeName, realesrganName])) ?_
      cases hex1 : (extractRun env.extract env.cancelFrom 1).1 with
      | error msg =>
        exact goodTr_finishTr _ _
          (by simp [List.all_append, evOk, ffprobeName, realesrganName, hex])
      | ok n =>
        apply goodTr_ite _ _ _
          (goodTr_finishTr _ _
            (by simp [List.all_append, evOk, ffprobeName, realesrganName,
              hex])) ?_
        apply goodTr_ite _ _ _
          (goodTr_finishTr _ _
            (by simp [List.all_append, evOk, ffprobeName, realesrganName,
              hex])) ?_
        exact goodTr_finishTr _ _
          (by simp [List.all_append, evOk, ffprobeName, realesrganName, hex])

theorem checkTr_of_goodTr (tr : List Event) (h : goodTr tr = true) :
    checkTr false tr = true := by
  unfold goodTr at h
  rw [Bool.and_eq_true] at h
  exact h.1

theorem all_evOk2_of_goodTr (tr : List Event) (h : goodTr tr = true) :
    tr.all evOk2 = true := by
  unfold goodTr at h
  rw [Bool.and_eq_true] at h
  exact h.2

theorem no_re_spawn (tr : List Event) (h : tr.all evOk2 = true) :
    realesrganName ∉ trSpawns tr := by
  intro hmem
  rw [List.all_eq_true] at h
  unfold trSpawns at hmem
  rw [List.mem_filterMap] at hmem
  obtain ⟨e, he, hsome⟩ := hmem
  have := h e he
  cases e <;> simp_all [evOk2]

theorem no_completed (tr : List Event) (h : tr.all evOk2 = true) :
    ∀ p, Event.completed p ∉ tr := by
  intro p hmem
  rw [List.all_eq_true] at h
  have := h _ hmem
  simp [evOk2] at this

/-! ## Claim theorems -/

/-- **C1** (code bug): cancellation observed inside the extraction stage's
poll loop surfaces as `FrameExtractionError("Extraction cancelled by
user")`, which the specific `except FrameExtractionError` clause catches
first, so the run terminates in `ERROR` with a "Frame extraction failed"
message — not in `CANCELLED` as the claim states.  Only a cancellation
observed by a between-stage check (second half) reaches the generic
handler whose substring test maps it to `CANCELLED`.  In both runs the
trace invariant (workspace removed before the single terminal signal)
holds, per `checkTr`. -/
theorem cancellation_in_poll_loop_yields_error_state :
    finalStage (runPipeline envCancelPoll) = some ProcessingStage.ERROR ∧
    terminalEvents (runPipeline envCancelPoll) =
      [Event.errorMsg "Frame extraction failed:\nExtraction cancelled by user"] ∧
    checkTr false (runPipeline envCancelPoll) = true ∧
    finalStage (runPipeline envCancelBetween) =
      some ProcessingStage.CANCELLED ∧
    terminalEvents (runPipeline envCancelBetween) =
      [Event.errorMsg "Processing was cancelled"] :=
  ⟨rfl, rfl, rfl, rfl, rfl⟩

/-- **C2**: every pipeline run emits exactly one terminal signal
(`processing_complete` or `processing_error`), it is the last event of the
trace, and the temporary workspace no longer exists at the moment it
fires (`checkTr` checks precisely this, tracking the workspace through
`tempCreated`/`cleanup` events). -/
theorem run_emits_exactly_one_terminal_and_workspace_gone (env : RunEnv) :
    checkTr false (runPipeline env) = true :=
  checkTr_of_goodTr _ (pipeline_trace_good env)

/-- **C4** (code bug): with every model asset present on disk,
`utils.validate_models_exist` itself would succeed (second conjunct), but
`Upscaler.upscale` invokes it with two positional arguments against its
one-parameter signature, so every upscaling run fails with the wrapped
`TypeError` before any enhancement process is spawned (first, third and
fourth conjuncts). -/
theorem model_validation_call_always_raises :
    upscaleRun = (.error arityErrMsg, ([] : List StageEv)) ∧
    validateModelsExist "realesrgan-x4plus" fsAll =
      .ok ("models/realesrgan-x4plus.bin", "models/realesrgan-x4plus.param") ∧
    terminalEvents (runPipeline envHealthy) =
      [Event.errorMsg ("AI upscaling failed:\n" ++ arityErrMsg)] ∧
    realesrganName ∉ trSpawns (runPipeline envHealthy) := by
  refine ⟨rfl, rfl, rfl, ?_⟩
  decide

/-- **C5** (counterexample): in a full pipeline run with the invalid scale
factor 5, processes are spawned (the validation probe and the extraction
child) strictly before the scale rejection error is emitted, refuting
"the rejection occurs before any process is spawned". -/
theorem pipeline_spawns_before_invalid_scale_rejection :
    spawnBeforeErr (runPipeline envScale5) = true ∧
    terminalEvents (runPipeline envScale5) =
      [Event.errorMsg
        "Processing failed:\nInvalid scale factor: 5. Valid options are: [2, 3, 4]"] ∧
    trSpawns (runPipeline envScale5) =
      [ffprobeName, ffprobeName, ffmpegName] :=
  ⟨rfl, rfl, rfl⟩

/-- **C5** (amended): every scale factor outside {2, 3, 4} is rejected by
the `Upscaler` constructor with a `ValueError` and every scale factor in
{2, 3, 4} passes it; in a full pipeline run the rejection happens before
the enhancement process is spawned (the enhancement binary is never
spawned in any run), although the validation probe and the extraction
child have already run by then. -/
theorem invalid_scale_rejected_before_enhancement_spawn :
    (∀ s : Int, ¬(s = 2 ∨ s = 3 ∨ s = 4) →
      upscalerInit s = .error (scaleErrMsg s)) ∧
    (∀ s : Int, (s = 2 ∨ s = 3 ∨ s = 4) → upscalerInit s = .ok ()) ∧
    (∀ env : RunEnv, realesrganName ∉ trSpawns (runPipeline env)) := by
  refine ⟨?_, ?_, ?_⟩
  · intro s hs
    have hb : scaleInvalid s = true := by
      simpa [scaleInvalid, and_assoc] using hs
    simp [upscalerInit, hb]
  · intro s hs
    rcases hs with rfl | rfl | rfl <;> rfl
  · intro env
    exact no_re_spawn _ (all_evOk2_of_goodTr _ (pipeline_trace_good env))

theorem invalid_scale_rejected_before_enhancement_spawn_witness :
    upscalerInit 5 = .error (scaleErrMsg 5) ∧ upscalerInit 2 = .ok () ∧
    realesrganName ∉ trSpawns (runPipeline envScale5) :=
  ⟨invalid_scale_rejected_before_enhancement_spawn.1 5 (by decide),
   invalid_scale_rejected_before_enhancement_spawn.2.1 2 (Or.inl rfl),
   invalid_scale_rejected_before_enhancement_spawn.2.2 envScale5⟩

/-- **C6** (counterexample): at `current = 5`, `total = 10`, the payload
emitted by `_on_progress` is the bare 4-tuple and is identical for two
elapsed times (10 and 999) whose claimed ETAs differ, so the re-published
notification cannot carry the ETA `elapsed / current * (total - current)`
that the claim describes (`onProgressSpecPayload` spells out the claimed
payload; the source's payload has no such component). -/
theorem progress_payload_carries_no_eta :
    onProgress 10 ProcessingStage.EXTRACTING 5 10 "m" =
      (5, 10, "Extracting", "m") ∧
    onProgress 10 ProcessingStage.EXTRACTING 5 10 "m" =
      onProgress 999 ProcessingStage.EXTRACTING 5 10 "m" ∧
    onProgressSpecPayload 10 ProcessingStage.EXTRACTING 5 10 "m" ≠
      onProgressSpecPayload 999 ProcessingStage.EXTRACTING 5 10 "m" := by
  refine ⟨rfl, rfl, ?_⟩
  intro h
  have h5 := congrArg (fun p => p.2.2.2.2) h
  simp only [onProgressSpecPayload] at h5
  norm_num at h5

/-- **C6** (amended): every re-published notification is exactly the
stage's sample `(current, total)` and message, augmented with the
capitalized active-stage name only; it does not depend on the elapsed
time.  The handler separately computes `remaining` as
`elapsed / current * (total - current)` when `current > 0` and `-1`
("unknown") otherwise, but that value is not part of the emitted
payload. -/
theorem progress_payload_is_sample_with_stage_name :
    (∀ (elapsed : ℚ) (st : ProcessingStage) (c t : Int) (m : String),
      onProgress elapsed st c t m = (c, t, pyCapitalize (stageName st), m)) ∧
    (∀ (e1 e2 : ℚ) (st : ProcessingStage) (c t : Int) (m : String),
      onProgress e1 st c t m = onProgress e2 st c t m) ∧
    (∀ (elapsed : ℚ) (c t : Int), 0 < c →
      onProgressRemaining elapsed c t =
        elapsed / (c : ℚ) * ((t : ℚ) - (c : ℚ))) ∧
    (∀ (elapsed : ℚ) (c t : Int), c ≤ 0 →
      onProgressRemaining elapsed c t = -1) := by
  refine ⟨fun _ _ _ _ _ => rfl, fun _ _ _ _ _ _ => rfl, ?_, ?_⟩
  · intro el c t hc
    simp [onProgressRemaining, hc]
  · intro el c t hc
    simp [onProgressRemaining, not_lt.mpr hc]

theorem progress_payload_is_sample_with_stage_name_witness :
    onProgress 3 ProcessingStage.UPSCALING 4 9 "x" =
      (4, 9, "Upscaling", "x") ∧
    onProgressRemaining 10 5 10 = 10 ∧
    onProgressRemaining 7 0 10 = -1 := by
  refine ⟨progress_payload_is_sample_with_stage_name.1 3 _ 4 9 "x", ?_, ?_⟩
  · rw [progress_payload_is_sample_with_stage_name.2.2.1 10 5 10 (by decide)]
    norm_num
  · exact progress_payload_is_sample_with_stage_name.2.2.2 7 0 10 le_rfl

/-- **C9** (counterexample): a probe report that decodes fine and has a
video stream with valid dimensions but a malformed frame-rate field
(`"garbage"`) does not produce a validation error; `get_video_info`
silently falls back to 30.0 fps and succeeds, refuting "any parse failure
(including an unparseable frame-rate field) is a validation error". -/
theorem malformed_frame_rate_falls_back :
    getVideoInfo probeBadFps =
      .ok { width := 100, height := 100, fps := 30, frame_count := 0,
            duration := 0, has_audio := false, codec := "unknown" } :=
  rfl

/-- **C10** (code bug): the derived output path is indeed
`parent / (stem + "_<scale>x_upscaled" + ext)` (first conjunct, at the
concrete input of the healthy run), but no run of the pipeline can ever
emit the `processing_complete` notification that is supposed to carry it:
every run fails at the upscaling stage with the wrapped `TypeError` of
the model-validation call (second and third conjuncts). -/
theorem derived_output_path_and_completed_unreachable :
    generateOutputPath inPath ("_" ++ toString (4 : Int) ++ "x_upscaled") =
      ⟨"C:/vids", "movie_4x_upscaled", ".mp4"⟩ ∧
    (∀ (env : RunEnv) (p : String), Event.completed p ∉ runPipeline env) ∧
    terminalEvents (runPipeline envHealthy) =
      [Event.errorMsg ("AI upscaling failed:\n" ++ arityErrMsg)] := by
  refine ⟨rfl, ?_, rfl⟩
  intro env p
  exact no_completed _ (all_evOk2_of_goodTr _ (pipeline_trace_good env)) p

theorem pollCounts_none_no_cancel (total : Int) (mk : Nat → String) :
    ∀ (counts : List Nat) (obs last : Nat),
      (pollCounts none total mk obs last counts).2 = false := by
  intro counts
  induction counts with
  | nil => intro obs last; rfl
  | cons c rest ih =>
    intro obs last
    simp only [pollCounts]
    split
    next h => simp [obsCancelled] at h
    next =>
      split
      · exact ih (obs + 1) c
      · exact ih (obs + 1) c

/-- **C3**: for the extraction stage and for the post-spawn section of the
enhancement stage (see `upscaleMonitor`; in the current source that
section is unreachable because the model-validation call raises first), a
clean exit (`exitCode = 0`) with zero output frames produces exactly the
no-frames error, and a successful return implies a clean exit with at
least one output frame. -/
theorem zero_frames_after_clean_exit_errors :
    (∀ (e : ExtractEnv) (obs0 : Nat) (vi : VideoInfo),
      getVideoInfo e.probe = .ok vi → e.exitCode = 0 → e.finalCount = 0 →
      (extractRun e none obs0).1 =
        .error ("No frames were extracted. The video may be corrupted or empty.\nDetails: "
          ++ e.stderr)) ∧
    (∀ (e : ExtractEnv) (cf : Option Nat) (obs0 : Nat) (n : Nat),
      (extractRun e cf obs0).1 = .ok n →
      e.exitCode = 0 ∧ n = e.finalCount ∧ 1 ≤ n) ∧
    (∀ (e : UpscaleMonEnv) (obs0 : Nat),
      e.inputCount ≠ 0 → e.exitCode = 0 → e.finalCount = 0 →
      (upscaleMonitor e none obs0).1 =
        .error ("No frames were upscaled. Check GPU compatibility and driver versions.\nDetails: "
          ++ e.stderr)) ∧
    (∀ (e : UpscaleMonEnv) (cf : Option Nat) (obs0 : Nat) (n : Nat),
      (upscaleMonitor e cf obs0).1 = .ok n →
      e.exitCode = 0 ∧ n = e.finalCount ∧ 1 ≤ n) := by
  refine ⟨?_, ?_, ?_, ?_⟩
  · intro e obs0 vi hp hexit hfc
    simp [extractRun, hp, hexit, hfc, pollCounts_none_no_cancel]
  · intro e cf obs0 n hok
    unfold extractRun at hok
    cases hp : getVideoInfo e.probe with
    | error msg =>
      rw [hp] at hok
      exact absurd hok (by simp)
    | ok vi =>
      rw [hp] at hok
      dsimp only at hok
      repeat' split at hok
      all_goals simp at hok
      all_goals
        subst hok
        rename_i hcancel hexit hfc
        simp only [ne_eq, not_not] at hexit
        simp only [beq_iff_eq] at hfc
        exact ⟨hexit, rfl, by omega⟩
  · intro e obs0 hin hexit hfc
    simp [upscaleMonitor, hin, hexit, hfc, pollCounts_none_no_cancel]
  · intro e cf obs0 n hok
    unfold upscaleMonitor at hok
    split at hok
    next => simp at hok
    next =>
      dsimp only at hok
      repeat' split at hok
      all_goals simp at hok
      all_goals
        subst hok
        rename_i hcancel hexit hfc
        simp only [ne_eq, not_not] at hexit
        simp only [beq_iff_eq] at hfc
        exact ⟨hexit, rfl, by omega⟩

theorem zero_frames_after_clean_exit_errors_witness :
    (extractRun { probe := probeTwo } none 0).1 =
      .error ("No frames were extracted. The video may be corrupted or empty.\nDetails: "
        ++ "") ∧
    ((0 : Int) = 0 ∧ (1 : Nat) = 1 ∧ (1 : Nat) ≤ 1) ∧
    (upscaleMonitor { inputCount := 2 } none 0).1 =
      .error ("No frames were upscaled. Check GPU compatibility and driver versions.\nDetails: "
        ++ "") ∧
    ((0 : Int) = 0 ∧ (2 : Nat) = 2 ∧ (1 : Nat) ≤ 2) := by
  refine ⟨?_, ?_, ?_, ?_⟩
  · exact zero_frames_after_clean_exit_errors.1 { probe := probeTwo } 0 _
      rfl rfl rfl
  · exact zero_frames_after_clean_exit_errors.2.1
      { probe := probeTwo, counts := [1], finalCount := 1 } none 1 1 rfl
  · exact zero_frames_after_clean_exit_errors.2.2.1 { inputCount := 2 } 0
      (by decide) rfl rfl
  · exact zero_frames_after_clean_exit_errors.2.2.2
      { inputCount := 2, finalCount := 2 } none 0 2 rfl

theorem sampleCurrents_append (a b : List StageEv) :
    sampleCurrents (a ++ b) = sampleCurrents a ++ sampleCurrents b := by
  simp [sampleCurrents]

theorem prop_snd_ite {α β : Type} (P : List β → Prop) (c : Prop)
    [Decidable c] (a b : α × List β) (ha : P a.2) (hb : P b.2) :
    P ((if c then a else b).2) := by
  split
  · exact ha
  · exact hb

/-- The `current` values emitted by the shared poll loop form a
non-decreasing chain when the observed counts do (the external tool only
ever adds frame files). -/
theorem pollCounts_currents_chain (cf : Option Nat) (total : Int)
    (mk : Nat → String) :
    ∀ (counts : List Nat) (obs last : Nat),
      List.Chain' (· ≤ ·) (last :: counts) →
      List.Chain' (· ≤ ·)
        ((last : Int) ::
          sampleCurrents (pollCounts cf total mk obs last counts).1) := by
  intro counts
  induction counts with
  | nil =>
    intro obs last _
    simp [pollCounts, sampleCurrents]
  | cons c rest ih =>
    intro obs last hch
    rw [List.chain'_cons] at hch
    simp only [pollCounts]
    split
    next => simp [sampleCurrents]
    next =>
      have hrec := ih (obs + 1) c hch.2
      split
      next hne =>
        dsimp only [sampleCurrents, List.filterMap_cons]
        rw [List.chain'_cons]
        exact ⟨by exact_mod_cast hch.1, hrec⟩
      next hne =>
        rw [not_ne_iff] at hne
        rw [← hne]
        exact hrec

/-- Every `current` emitted by the shared poll loop is one of the observed
counts. -/
theorem pollCounts_currents_mem (cf : Option Nat) (total : Int)
    (mk : Nat → String) :
    ∀ (counts : List Nat) (obs last : Nat) (x : Int),
      x ∈ sampleCurrents (pollCounts cf total mk obs last counts).1 →
      ∃ m, m ∈ counts ∧ x = (m : Int) := by
  intro counts
  induction counts with
  | nil =>
    intro obs last x hx
    simp [pollCounts, sampleCurrents] at hx
  | cons c rest ih =>
    intro obs last x hx
    simp only [pollCounts] at hx
    split at hx
    next => simp [sampleCurrents] at hx
    next =>
      split at hx
      next =>
        dsimp only [sampleCurrents, List.filterMap_cons] at hx
        rcases List.mem_cons.mp hx with h | h
        · exact ⟨c, List.mem_cons_self c rest, h⟩
        · obtain ⟨m, hm, hxm⟩ := ih (obs + 1) c x h
          exact ⟨m, List.mem_cons_of_mem c hm, hxm⟩
      next =>
        obtain ⟨m, hm, hxm⟩ := ih (obs + 1) c x hx
        exact ⟨m, List.mem_cons_of_mem c hm, hxm⟩

/-- The estimated counter of the assembly loop is monotone, non-negative
and capped at `total - 1`, unconditionally. -/
theorem assembleLoop_bounds (cf : Option Nat) (total : Int) :
    ∀ (sizes : List (Option Int)) (obs : Nat) (lastSize fp : Int),
      0 ≤ fp → fp ≤ total - 1 →
      List.Chain' (· ≤ ·)
        (fp :: sampleCurrents (assembleLoop cf total obs lastSize fp sizes).1) ∧
      ∀ x ∈ sampleCurrents (assembleLoop cf total obs lastSize fp sizes).1,
        0 ≤ x ∧ x ≤ total - 1 := by
  intro sizes
  induction sizes with
  | nil =>
    intro obs lastSize fp h0 h1
    simp [assembleLoop, sampleCurrents]
  | cons sz rest ih =>
    intro obs lastSize fp h0 h1
    simp only [assembleLoop]
    split
    next => simp [sampleCurrents]
    next =>
      cases sz with
      | some s =>
        dsimp only
        split
        next hgrow =>
          have h0' : (0 : Int) ≤ min (fp + 10) (total - 1) :=
            le_min (by omega) (by omega)
          have h1' : min (fp + 10) (total - 1) ≤ total - 1 :=
            min_le_right _ _
          have hfp : fp ≤ min (fp + 10) (total - 1) :=
            le_min (by omega) h1
          have hrec := ih (obs + 1) s (min (fp + 10) (total - 1)) h0' h1'
          dsimp only [sampleCurrents, List.filterMap_cons]
          constructor
          · rw [List.chain'_cons]
            exact ⟨hfp, hrec.1⟩
          · intro x hx
            rcases List.mem_cons.mp hx with h | h
            · subst h
              exact ⟨h0', h1'⟩
            · exact hrec.2 x h
        next => exact ih (obs + 1) lastSize fp h0 h1
      | none => exact ih (obs + 1) lastSize fp h0 h1

theorem sampleCurrents_single (c t : Int) (m : String) :
    sampleCurrents [StageEv.sample c t m] = [c] := rfl

theorem chain_append_last (l : List Int) (fc : Int)
    (hC : List.Chain' (· ≤ ·) l) (hle : ∀ x ∈ l, x ≤ fc) :
    List.Chain' (· ≤ ·) (l ++ [fc]) := by
  rw [List.chain'_append]
  refine ⟨hC, List.chain'_singleton fc, ?_⟩
  intro x hx y hy
  simp only [List.head?_cons, Option.mem_def, Option.some.injEq] at hy
  subst hy
  obtain ⟨hne, hxeq⟩ := List.mem_getLast?_eq_getLast hx
  exact hle _ (by rw [hxeq]; exact List.getLast_mem hne)

/-- Monotone, non-negative emitted currents: the invariant of the
extraction/enhancement poll loops. -/
def currentsProp (evs : List StageEv) : Prop :=
  List.Chain' (· ≤ ·) (sampleCurrents evs) ∧
  ∀ x ∈ sampleCurrents evs, 0 ≤ x

/-- Monotone currents bounded by `total`, with every sample before the
final one bounded by `total - 1`: the invariant of the assembly loop. -/
def assemblyProp (total : Int) (evs : List StageEv) : Prop :=
  List.Chain' (· ≤ ·) (sampleCurrents evs) ∧
  (∀ x ∈ sampleCurrents evs, 0 ≤ x ∧ x ≤ total) ∧
  ∀ x ∈ (sampleCurrents evs).dropLast, x ≤ total - 1

/-- **C7** (amended): within each stage the emitted `current` values are
non-negative and non-decreasing — for Extraction and Enhancement under
the environment assumptions that the observed frame counts are
non-decreasing and the post-exit count is at least every observed count
(the wrapped tools only ever add frame files); for Assembly
unconditionally, where additionally every sample is bounded by `total`
and every sample before the final completion sample by `total - 1`.  The
claim's further assertion `current ≤ total` for Extraction/Enhancement
does not hold in general (see the counterexample): those loops do not
clamp the measured count to the probed total. -/
theorem progress_currents_monotone_and_bounded :
    (∀ (e : ExtractEnv) (cf : Option Nat) (obs0 : Nat),
      List.Chain' (· ≤ ·) e.counts →
      (∀ m ∈ e.counts, m ≤ e.finalCount) →
      currentsProp (extractRun e cf obs0).2) ∧
    (∀ (e : UpscaleMonEnv) (cf : Option Nat) (obs0 : Nat),
      List.Chain' (· ≤ ·) e.counts →
      (∀ m ∈ e.counts, m ≤ e.finalCount) →
      currentsProp (upscaleMonitor e cf obs0).2) ∧
    (∀ (e : AssembleEnv) (orig outP : PyPath) (vi : VideoInfo)
        (cf : Option Nat) (obs0 : Nat),
      assemblyProp (e.framesCount : Int)
        (assembleRun e orig outP vi cf obs0).2) := by
  refine ⟨?_, ?_, ?_⟩
  · intro e cf obs0 hmono hfin
    have hch0 : List.Chain' (· ≤ ·) ((0 : Nat) :: e.counts) :=
      List.chain'_cons'.mpr ⟨fun y _ => Nat.zero_le y, hmono⟩
    unfold extractRun
    cases hp : getVideoInfo e.probe with
    | error msg => exact ⟨by simp [sampleCurrents], by simp [sampleCurrents]⟩
    | ok vi =>
      dsimp only
      refine prop_snd_ite currentsProp _ _ _ ?_ ?_
      · refine ⟨pollCounts_currents_chain cf _ _ e.counts obs0 0 hch0, ?_⟩
        intro x hx
        rw [sampleCurrents_append] at hx
        rcases List.mem_append.mp hx with h | h
        · simp [sampleCurrents] at h
          omega
        · obtain ⟨m, _, rfl⟩ :=
            pollCounts_currents_mem cf _ _ e.counts obs0 0 x h
          exact Int.natCast_nonneg m
      refine prop_snd_ite currentsProp _ _ _ ?_ ?_
      · refine ⟨pollCounts_currents_chain cf _ _ e.counts obs0 0 hch0, ?_⟩
        intro x hx
        rw [sampleCurrents_append] at hx
        rcases List.mem_append.mp hx with h | h
        · simp [sampleCurrents] at h
          omega
        · obtain ⟨m, _, rfl⟩ :=
            pollCounts_currents_mem cf _ _ e.counts obs0 0 x h
          exact Int.natCast_nonneg m
      refine prop_snd_ite currentsProp _ _ _ ?_ ?_
      · refine ⟨pollCounts_currents_chain cf _ _ e.counts obs0 0 hch0, ?_⟩
        intro x hx
        rw [sampleCurrents_append] at hx
        rcases List.mem_append.mp hx with h | h
        · simp [sampleCurrents] at h
          omega
        · obtain ⟨m, _, rfl⟩ :=
            pollCounts_currents_mem cf _ _ e.counts obs0 0 x h
          exact Int.natCast_nonneg m
      constructor
      · rw [sampleCurrents_append, sampleCurrents_append]
        apply chain_append_last
        · exact pollCounts_currents_chain cf _ _ e.counts obs0 0 hch0
        · intro x hx
          rcases List.mem_append.mp hx with h | h
          · simp [sampleCurrents] at h
            subst h
            exact Int.natCast_nonneg _
          · obtain ⟨m, hm, rfl⟩ :=
              pollCounts_currents_mem cf _ _ e.counts obs0 0 x h
            exact_mod_cast hfin m hm
      · intro x hx
        rw [sampleCurrents_append, sampleCurrents_append] at hx
        rcases List.mem_append.mp hx with h | h
        · rcases List.mem_append.mp h with h2 | h2
          · simp [sampleCurrents] at h2
            omega
          · obtain ⟨m, _, rfl⟩ :=
              pollCounts_currents_mem cf _ _ e.counts obs0 0 x h2
            exact Int.natCast_nonneg m
        · simp [sampleCurrents] at h
          subst h
          exact Int.natCast_nonneg _
  · intro e cf obs0 hmono hfin
    have hch0 : List.Chain' (· ≤ ·) ((0 : Nat) :: e.counts) :=
      List.chain'_cons'.mpr ⟨fun y _ => Nat.zero_le y, hmono⟩
    unfold upscaleMonitor
    refine prop_snd_ite currentsProp _ _ _ ?_ ?_
    · exact ⟨by simp [sampleCurrents], by simp [sampleCurrents]⟩
    dsimp only
    refine prop_snd_ite currentsProp _ _ _ ?_ ?_
    · refine ⟨pollCounts_currents_chain cf _ _ e.counts obs0 0 hch0, ?_⟩
      intro x hx
      rw [sampleCurrents_append] at hx
      rcases List.mem_append.mp hx with h | h
      · simp [sampleCurrents] at h
        omega
      · obtain ⟨m, _, rfl⟩ :=
          pollCounts_currents_mem cf _ _ e.counts obs0 0 x h
        exact Int.natCast_nonneg m
    refine prop_snd_ite currentsProp _ _ _ ?_ ?_
    · refine ⟨pollCounts_currents_chain cf _ _ e.counts obs0 0 hch0, ?_⟩
      intro x hx
      rw [sampleCurrents_append] at hx
      rcases List.mem_append.mp hx with h | h
      · simp [sampleCurrents] at h
        omega
      · obtain ⟨m, _, rfl⟩ :=
          pollCounts_currents_mem cf _ _ e.counts obs0 0 x h
        exact Int.natCast_nonneg m
    refine prop_snd_ite currentsProp _ _ _ ?_ ?_
    · refine ⟨pollCounts_currents_chain cf _ _ e.counts obs0 0 hch0, ?_⟩
      intro x hx
      rw [sampleCurrents_append] at hx
      rcases List.mem_append.mp hx with h | h
      · simp [sampleCurrents] at h
        omega
      · obtain ⟨m, _, rfl⟩ :=
          pollCounts_currents_mem cf _ _ e.counts obs0 0 x h
        exact Int.natCast_nonneg m
    constructor
    · rw [sampleCurrents_append, sampleCurrents_append]
      apply chain_append_last
      · exact pollCounts_currents_chain cf _ _ e.counts obs0 0 hch0
      · intro x hx
        rcases List.mem_append.mp hx with h | h
        · simp [sampleCurrents] at h
          subst h
          exact Int.natCast_nonneg _
        · obtain ⟨m, hm, rfl⟩ :=
            pollCounts_currents_mem cf _ _ e.counts obs0 0 x h
          exact_mod_cast hfin m hm
    · intro x hx
      rw [sampleCurrents_append, sampleCurrents_append] at hx
      rcases List.mem_append.mp hx with h | h
      · rcases List.mem_append.mp h with h2 | h2
        · simp [sampleCurrents] at h2
          omega
        · obtain ⟨m, _, rfl⟩ :=
            pollCounts_currents_mem cf _ _ e.counts obs0 0 x h2
          exact Int.natCast_nonneg m
      · simp [sampleCurrents] at h
        subst h
        exact Int.natCast_nonneg _
  · intro e orig outP vi cf obs0
    unfold assembleRun
    by_cases hzero : (e.framesCount == 0) = true
    · rw [if_pos hzero]
      exact ⟨by simp [sampleCurrents], by simp [sampleCurrents],
        by simp [sampleCurrents]⟩
    · rw [if_neg hzero]
      dsimp only
      have hT1 : (1 : Int) ≤ (e.framesCount : Int) := by
        simp only [beq_iff_eq] at hzero
        omega
      have hloop := assembleLoop_bounds cf (e.framesCount : Int) e.sizes obs0
        0 0 le_rfl (by omega)
      refine prop_snd_ite (assemblyProp (e.framesCount : Int)) _ _ _ ?_ ?_
      · refine ⟨hloop.1, ?_, ?_⟩
        · intro x hx
          rw [sampleCurrents_append] at hx
          rcases List.mem_append.mp hx with h | h
          · simp [sampleCurrents] at h
            omega
          · have := hloop.2 x h
            omega
        · intro x hx
          have hx2 := List.mem_of_mem_dropLast hx
          rw [sampleCurrents_append] at hx2
          rcases List.mem_append.mp hx2 with h | h
          · simp [sampleCurrents] at h
            omega
          · exact (hloop.2 x h).2
      refine prop_snd_ite (assemblyProp (e.framesCount : Int)) _ _ _ ?_ ?_
      · refine ⟨hloop.1, ?_, ?_⟩
        · intro x hx
          rw [sampleCurrents_append] at hx
          rcases List.mem_append.mp hx with h | h
          · simp [sampleCurrents] at h
            omega
          · have := hloop.2 x h
            omega
        · intro x hx
          have hx2 := List.mem_of_mem_dropLast hx
          rw [sampleCurrents_append] at hx2
          rcases List.mem_append.mp hx2 with h | h
          · simp [sampleCurrents] at h
            omega
          · exact (hloop.2 x h).2
      refine prop_snd_ite (assemblyProp (e.framesCount : Int)) _ _ _ ?_ ?_
      · refine ⟨hloop.1, ?_, ?_⟩
        · intro x hx
          rw [sampleCurrents_append] at hx
          rcases List.mem_append.mp hx with h | h
          · simp [sampleCurrents] at h
            omega
          · have := hloop.2 x h
            omega
        · intro x hx
          have hx2 := List.mem_of_mem_dropLast hx
          rw [sampleCurrents_append] at hx2
          rcases List.mem_append.mp hx2 with h | h
          · simp [sampleCurrents] at h
            omega
          · exact (hloop.2 x h).2
      refine prop_snd_ite (assemblyProp (e.framesCount : Int)) _ _ _ ?_ ?_
      · refine ⟨hloop.1, ?_, ?_⟩
        · intro x hx
          rw [sampleCurrents_append] at hx
          rcases List.mem_append.mp hx with h | h
          · simp [sampleCurrents] at h
            omega
          · have := hloop.2 x h
            omega
        · intro x hx
          have hx2 := List.mem_of_mem_dropLast hx
          rw [sampleCurrents_append] at hx2
          rcases List.mem_append.mp hx2 with h | h
          · simp [sampleCurrents] at h
            omega
          · exact (hloop.2 x h).2
      refine ⟨?_, ?_, ?_⟩
      · rw [sampleCurrents_append, sampleCurrents_append]
        apply chain_append_last
        · exact hloop.1
        · intro x hx
          rcases List.mem_append.mp hx with h | h
          · simp [sampleCurrents] at h
            omega
          · have := hloop.2 x h
            omega
      · intro x hx
        rw [sampleCurrents_append, sampleCurrents_append] at hx
        rcases List.mem_append.mp hx with h | h
        · rcases List.mem_append.mp h with h2 | h2
          · simp [sampleCurrents] at h2
            omega
          · have := hloop.2 x h2
            omega
        · simp [sampleCurrents] at h
          omega
      · intro x hx
        rw [sampleCurrents_append, sampleCurrents_append,
          sampleCurrents_single, List.dropLast_concat] at hx
        rcases List.mem_append.mp hx with h | h
        · simp [sampleCurrents] at h
          omega
        · exact (hloop.2 x h).2

theorem progress_currents_monotone_and_bounded_witness :
    (List.Chain' (· ≤ ·)
      (sampleCurrents
        (extractRun { probe := probeTwo, counts := [1, 2], finalCount := 2 }
          none 0).2) ∧
     ∀ x ∈ sampleCurrents
        (extractRun { probe := probeTwo, counts := [1, 2], finalCount := 2 }
          none 0).2, 0 ≤ x) ∧
    (List.Chain' (· ≤ ·)
      (sampleCurrents
        (assembleRun { framesCount := 3, sizes := [some 100, some 200] }
          inPath inPath ⟨4, 4, 1, 2, 2, true, "h264"⟩ none 0).2)) := by
  constructor
  · exact progress_currents_monotone_and_bounded.1
      { probe := probeTwo, counts := [1, 2], finalCount := 2 } none 0
      (by rw [List.chain'_cons]; exact ⟨by omega, List.chain'_singleton 2⟩)
      (by intro m hm; simp at hm; rcases hm with rfl | rfl <;> decide)
  · exact (progress_currents_monotone_and_bounded.2.2
      { framesCount := 3, sizes := [some 100, some 200] }
      inPath inPath ⟨4, 4, 1, 2, 2, true, "h264"⟩ none 0).1

/-- **C7** (counterexample): with a probe that reports 2 frames (so the
total is known, not an estimate) and an extraction child that actually
writes 3 frame files, the extraction stage emits the sample `(3, 2)` —
`current > total` — refuting `0 ≤ current ≤ total` as stated. -/
theorem extraction_current_can_exceed_total :
    anyOverTotal (extractRun extractOverEnv none 0).2 = true ∧
    StageEv.sample 3 2 "Extracting frame 3/2" ∈
      (extractRun extractOverEnv none 0).2 := by
  refine ⟨rfl, ?_⟩
  decide

theorem getCodecArgs_plain (ext : String) :
    (getCodecArgs ext).count "-i" = 0 ∧
    (getCodecArgs ext).count "-map" = 0 ∧
    "1:a?" ∉ getCodecArgs ext := by
  unfold getCodecArgs
  repeat' split
  all_goals exact ⟨by decide, by decide, by decide⟩

/-- **C8**: provided none of the caller-supplied strings (frame pattern,
frame-rate text, original path, output path) collides with the literal
flags, the assembly command with `has_audio = false` contains exactly one
input (`-i`) and no stream mapping at all, while with `has_audio = true`
it contains a second input and two `-map` arguments, the audio one being
the optional-stream form `"1:a?"` (the trailing `?` makes a missing audio
stream non-fatal at encode time). -/
theorem assembly_audio_mapping_iff_has_audio
    (framePattern originalStr outStr : String) (fps : ℚ) (ext : String)
    (hfp : framePattern ≠ "-i" ∧ framePattern ≠ "-map" ∧
      framePattern ≠ "1:a?")
    (hfps : toString fps ≠ "-i" ∧ toString fps ≠ "-map" ∧
      toString fps ≠ "1:a?")
    (ho : originalStr ≠ "-i" ∧ originalStr ≠ "-map" ∧ originalStr ≠ "1:a?")
    (hout : outStr ≠ "-i" ∧ outStr ≠ "-map" ∧ outStr ≠ "1:a?") :
    ((assembleCmd framePattern originalStr outStr fps false ext).count "-i"
        = 1 ∧
     (assembleCmd framePattern originalStr outStr fps false ext).count "-map"
        = 0 ∧
     "1:a?" ∉ assembleCmd framePattern originalStr outStr fps false ext) ∧
    ((assembleCmd framePattern originalStr outStr fps true ext).count "-i"
        = 2 ∧
     (assembleCmd framePattern originalStr outStr fps true ext).count "-map"
        = 2 ∧
     "1:a?" ∈ assembleCmd framePattern originalStr outStr fps true ext) := by
  obtain ⟨hfp1, hfp2, hfp3⟩ := hfp
  obtain ⟨hq1, hq2, hq3⟩ := hfps
  obtain ⟨ho1, ho2, ho3⟩ := ho
  obtain ⟨hu1, hu2, hu3⟩ := hout
  have hc := getCodecArgs_plain ext
  refine ⟨⟨?_, ?_, ?_⟩, ⟨?_, ?_, ?_⟩⟩ <;>
    simp [assembleCmd, ffmpegName, List.count_append, List.count_cons,
      beq_iff_eq, hfp1, hfp2, hq1, hq2, ho1, ho2, hu1, hu2,
      hc.1, hc.2.1, hc.2.2, Ne.symm hfp3, Ne.symm hq3, Ne.symm ho3,
      Ne.symm hu3]

theorem assembly_audio_mapping_iff_has_audio_witness :
    ((assembleCmd "frames/frame_%08d.png" "C:/vids/movie.mp4"
        "C:/vids/out.mkv" 30 false ".mkv").count "-i" = 1 ∧
     (assembleCmd "frames/frame_%08d.png" "C:/vids/movie.mp4"
        "C:/vids/out.mkv" 30 false ".mkv").count "-map" = 0 ∧
     "1:a?" ∉ assembleCmd "frames/frame_%08d.png" "C:/vids/movie.mp4"
        "C:/vids/out.mkv" 30 false ".mkv") ∧
    ((assembleCmd "frames/frame_%08d.png" "C:/vids/movie.mp4"
        "C:/vids/out.mkv" 30 true ".mkv").count "-i" = 2 ∧
     (assembleCmd "frames/frame_%08d.png" "C:/vids/movie.mp4"
        "C:/vids/out.mkv" 30 true ".mkv").count "-map" = 2 ∧
     "1:a?" ∈ assembleCmd "frames/frame_%08d.png" "C:/vids/movie.mp4"
        "C:/vids/out.mkv" 30 true ".mkv") :=
  assembly_audio_mapping_iff_has_audio "frames/frame_%08d.png"
    "C:/vids/movie.mp4" "C:/vids/out.mkv" 30 ".mkv"
    (by refine ⟨?_, ?_, ?_⟩ <;> decide)
    (by refine ⟨?_, ?_, ?_⟩ <;> decide)
    (by refine ⟨?_, ?_, ?_⟩ <;> decide)
    (by refine ⟨?_, ?_, ?_⟩ <;> decide)

/-- **C9** (amended): the probe fails on an undecodable report and on a
report without a video stream; the frame rate is parsed as a rational
when well-formed, and falls back to 30.0 (rather than failing, as the
original claim stated) when malformed or with a zero denominator; the
frame count comes from `nb_frames` when present and non-zero, else from
`int(duration * fps)`, else is 0. -/
theorem probe_failure_modes_and_field_derivation :
    (∀ r : ProbeResult, r.timedOut = false → r.returncode = 0 →
      r.parsed = none →
      getVideoInfo r = .error "Failed to parse FFprobe output") ∧
    (∀ (r : ProbeResult) (d : ProbeData), r.timedOut = false →
      r.returncode = 0 → r.parsed = some d →
      findVideoStream d.streams = none →
      getVideoInfo r = .error "No video stream found in file") ∧
    (parseFps "30000/1001" = 30000 / 1001 ∧ parseFps "30" = 30 ∧
      parseFps "garbage" = 30 ∧ parseFps "30/0" = 30) ∧
    (∀ (vs : StreamInfo) (fmt : Option FormatInfo) (fps : ℚ) (s : String)
        (n : Int),
      vs.nbFrames = some s → pyInt s = some n → n ≠ 0 →
      frameCountOf vs fmt fps = n) ∧
    (∀ (vs : StreamInfo) (fps : ℚ) (ds : String) (d : ℚ),
      vs.nbFrames = none → vs.durationStr = some ds → pyFloat ds = some d →
      frameCountOf vs none fps = truncQ (d * fps)) ∧
    (∀ (vs : StreamInfo) (fps : ℚ),
      vs.nbFrames = none → vs.durationStr = none →
      frameCountOf vs none fps = 0) := by
  refine ⟨?_, ?_, ⟨?_, rfl, rfl, rfl⟩, ?_, ?_, ?_⟩
  · intro r h1 h2 h3
    simp [getVideoInfo, h1, h2, h3]
  · intro r d h1 h2 h3 h4
    simp [getVideoInfo, h1, h2, h3, h4]
  · have h : parseFps "30000/1001" = ((30000 : Nat) : ℚ) / ((1001 : Nat) : ℚ) :=
      rfl
    rw [h]
    norm_num
  · intro vs fmt fps s n hnb hpi hn
    simp [frameCountOf, hnb, hpi, hn]
  · intro vs fps ds d hnb hds hpf
    by_cases ht : truncQ (d * fps) = 0
    · simp [frameCountOf, hnb, hds, hpf, ht]
    · simp [frameCountOf, hnb, hds, hpf, ht]
  · intro vs fps hnb hds
    simp [frameCountOf, hnb, hds]

theorem probe_failure_modes_and_field_derivation_witness :
    getVideoInfo {} = .error "Failed to parse FFprobe output" ∧
    getVideoInfo { parsed := some { streams := [] } } =
      .error "No video stream found in file" ∧
    frameCountOf { codecType := "video", nbFrames := some "240" } none 30
      = 240 ∧
    frameCountOf { codecType := "video", durationStr := some "2" } none 3
      = truncQ (((2 : Nat) : ℚ) * 3) ∧
    frameCountOf { codecType := "video" } none 3 = 0 := by
  refine ⟨?_, ?_, ?_, ?_, ?_⟩
  · exact probe_failure_modes_and_field_derivation.1 {} rfl rfl rfl
  · exact probe_failure_modes_and_field_derivation.2.1
      { parsed := some { streams := [] } } { streams := [] } rfl rfl rfl rfl
  · exact probe_failure_modes_and_field_derivation.2.2.2.1
      { codecType := "video", nbFrames := some "240" } none 30 "240" 240
      rfl rfl (by decide)
  · exact probe_failure_modes_and_field_derivation.2.2.2.2.1
      { codecType := "video", durationStr := some "2" } 3 "2"
      ((2 : Nat) : ℚ) rfl rfl rfl
  · exact probe_failure_modes_and_field_derivation.2.2.2.2.2
      { codecType := "video" } 3 rfl rfl

end VideoUpscaler
